import Mathlib

/-!
Verification of the `toolmodel` Go library (schema validation core in
`validator.go`, tool identifiers and tag normalization in `tool.go`).

Shallow embedding conventions:
* Go strings are Lean `String`s in the validator model; in the `tool.go`
  model (`ToolID`, `ParseToolID`, `NormalizeTags`) they are `List Char`,
  matching Go's byte-level string operations on ASCII data.
* JSON values are the inductive `JSON`; `map[string]any` arguments are
  JSON objects (`List (String × JSON)` field lists).
* Go errors are the inductive `VError`; `fmt.Errorf("...: %w", err)`
  wrapping is a constructor application, and `errors.Is` is the
  `wraps...` Boolean scanners.
* The external `jsonschema-go` library (the canonical `jsonschema.Schema`
  type, `Resolve`, structural `Validate`) and `encoding/json` decoding are
  not part of this repository; where a claim depends on them they are
  modelled from the specification, and each such definition says so in its
  doc comment.
-/

namespace Toolmodel

/-- JSON instance values: scalars, sequences, mappings, null.
Numbers are rationals so the integer/number distinction is expressible. -/
inductive JSON : Type where
  | null : JSON
  | bool (b : Bool) : JSON
  | num (q : Rat) : JSON
  | str (s : String) : JSON
  | arr (elems : List JSON) : JSON
  | obj (fields : List (String × JSON)) : JSON

/-- Modelled from the spec: the canonical in-memory schema object of the
external `jsonschema-go` library (`jsonschema.Schema`), restricted to the
logical fields the spec and the wrapper code consume: the dialect marker
`Schema` (`$schema`), `Ref` (`$ref`), `Ty` (`type`; `Type` is reserved in
Lean), `Properties`, `Required`, and `AdditionalProperties` (modelled as an
optional Boolean, covering the `"additionalProperties": false` convention
of the spec). -/
inductive JsonSchema : Type where
  | mk : (schemaMarker : String) → (ref : Option String) → (ty : Option String) →
      (properties : List (String × JsonSchema)) → (required : List String) →
      (additionalProperties : Option Bool) → JsonSchema

/-- The `Schema` field (the `$schema` dialect marker). -/
def JsonSchema.Schema : JsonSchema → String
  | .mk s _ _ _ _ _ => s

/-- The `Ref` field (`$ref`). -/
def JsonSchema.Ref : JsonSchema → Option String
  | .mk _ r _ _ _ _ => r

/-- The `Type` field (`type`). -/
def JsonSchema.Ty : JsonSchema → Option String
  | .mk _ _ t _ _ _ => t

/-- The `Properties` field. -/
def JsonSchema.Properties : JsonSchema → List (String × JsonSchema)
  | .mk _ _ _ p _ _ => p

/-- The `Required` field. -/
def JsonSchema.Required : JsonSchema → List String
  | .mk _ _ _ _ r _ => r

/-- The `AdditionalProperties` field. -/
def JsonSchema.AdditionalProperties : JsonSchema → Option Bool
  | .mk _ _ _ _ _ a => a

/-- Go's `schema.Schema = v` field assignment, as a functional update. -/
def JsonSchema.withSchema : JsonSchema → String → JsonSchema
  | .mk _ r t p q a, v => .mk v r t p q a

/-- The error taxonomy of `validator.go` and the wrapping structure built
with `fmt.Errorf("...: %w", err)`:
* `unsupportedSchema` — wraps `ErrUnsupportedSchema`, naming the dialect;
* `externalRef` — wraps `ErrExternalRef`, naming the requested URI;
* `invalidSchema` — wraps `ErrInvalidSchema`, carrying the message;
* `resolutionFailed` — `"schema resolution failed: %w"` around the
  resolution error;
* `validationFailed` — `"validation failed: %w"` around the structural
  mismatch description. -/
inductive VError : Type where
  | unsupportedSchema (dialect : String) : VError
  | externalRef (uri : String) : VError
  | invalidSchema (msg : String) : VError
  | resolutionFailed (inner : VError) : VError
  | validationFailed (msg : String) : VError

/-- `errors.Is(e, ErrExternalRef)`: does the error chain contain the
external-reference sentinel? -/
def VError.wrapsExternalRef : VError → Bool
  | .externalRef _ => true
  | .resolutionFailed e => e.wrapsExternalRef
  | _ => false

/-- `errors.Is(e, ErrInvalidSchema)`. -/
def VError.wrapsInvalidSchema : VError → Bool
  | .invalidSchema _ => true
  | .resolutionFailed e => e.wrapsInvalidSchema
  | _ => false

/-- `errors.Is(e, ErrUnsupportedSchema)`. -/
def VError.wrapsUnsupportedSchema : VError → Bool
  | .unsupportedSchema _ => true
  | .resolutionFailed e => e.wrapsUnsupportedSchema
  | _ => false

/-- `SchemaDialect202012` (validator.go:27). -/
def SchemaDialect202012 : String := "https://json-schema.org/draft/2020-12/schema"

/-- `SchemaDialectDraft07` (validator.go:28). -/
def SchemaDialectDraft07 : String := "http://json-schema.org/draft-07/schema#"

/-- `SchemaDialectDraft07Alt` (validator.go:29). -/
def SchemaDialectDraft07Alt : String := "http://json-schema.org/draft-07/schema"

/-- The 2020-12 dialect family marker used at validator.go:183. -/
def dialect202012Family : String := "https://json-schema.org/draft/2020-12/"

/-- The draft-07 dialect family marker used at validator.go:186. -/
def dialectDraft07Family : String := "http://json-schema.org/draft-07/"

/-- Go's `strings.HasPrefix(s, p)`, byte-level, modelled on the character
lists underlying the two strings. -/
def hasPre (p s : String) : Bool := p.data.isPrefixOf s.data

/-- `checkDialect` (validator.go:168-193), translated clause by clause.
The Go function mutates `schema.Schema` in place for draft-07; here the
possibly-updated schema is returned. -/
def checkDialect (schema : JsonSchema) : Except VError JsonSchema :=
  if schema.Schema = "" then
    .ok schema
  else
    let dialect := schema.Schema
    if dialect = SchemaDialect202012 then
      .ok schema
    else if dialect = SchemaDialectDraft07 || dialect = SchemaDialectDraft07Alt then
      .ok (schema.withSchema "")
    else if hasPre dialect202012Family dialect then
      .ok schema
    else if hasPre dialectDraft07Family dialect then
      .ok (schema.withSchema "")
    else
      .error (.unsupportedSchema dialect)

/-- The dialect decision exactly as the specification phrases it (spec
§4.2 step 2 / claim C2): absent/empty accepts; the 2020-12 exact URI or
2020-12 prefix accepts unchanged; the two draft-07 spellings or the
draft-07 prefix accept after clearing the marker; everything else is an
unsupported-dialect error naming the marker. Stated separately from
`checkDialect` so the agreement of the two is a theorem. -/
def dialectDecisionSpec (schema : JsonSchema) : Except VError JsonSchema :=
  if schema.Schema = "" then
    .ok schema
  else if schema.Schema = SchemaDialect202012 || hasPre dialect202012Family schema.Schema then
    .ok schema
  else if schema.Schema = SchemaDialectDraft07 || schema.Schema = SchemaDialectDraft07Alt
      || hasPre dialectDraft07Family schema.Schema then
    .ok (schema.withSchema "")
  else
    .error (.unsupportedSchema schema.Schema)

/-- Decode a JSON array of strings (used for `required`). -/
def decodeStringElems : List JSON → Option (List String)
  | [] => some []
  | .str s :: rest => (decodeStringElems rest).map (s :: ·)
  | _ => none

/-- Decode a JSON value as a list of strings. -/
def decodeStringList : JSON → Option (List String)
  | .arr elems => decodeStringElems elems
  | _ => none

mutual
/-- Modelled from the spec (§4.1): decoding encoded JSON "into the
canonical object type" — the behaviour of `json.Unmarshal` into the
external `jsonschema.Schema`, which lives outside this repository. A JSON
object decodes field-wise (unknown fields are ignored, as `encoding/json`
does); any non-object value, or a known field of the wrong shape, is a
decode failure (`none`). -/
def schemaOfJSON : JSON → Option JsonSchema
  | .obj fields => decodeSchemaFields fields
  | _ => none

/-- Field-wise decoding of a JSON object into a `JsonSchema`. -/
def decodeSchemaFields : List (String × JSON) → Option JsonSchema
  | [] => some (.mk "" none none [] [] none)
  | (k, v) :: rest =>
    match decodeSchemaFields rest with
    | none => none
    | some s =>
      if k = "$schema" then
        match v with
        | .str d => some (.mk d s.Ref s.Ty s.Properties s.Required s.AdditionalProperties)
        | _ => none
      else if k = "$ref" then
        match v with
        | .str r => some (.mk s.Schema (some r) s.Ty s.Properties s.Required s.AdditionalProperties)
        | _ => none
      else if k = "type" then
        match v with
        | .str t => some (.mk s.Schema s.Ref (some t) s.Properties s.Required s.AdditionalProperties)
        | _ => none
      else if k = "properties" then
        match v with
        | .obj pf =>
          match decodePropFields pf with
          | none => none
          | some ps => some (.mk s.Schema s.Ref s.Ty ps s.Required s.AdditionalProperties)
        | _ => none
      else if k = "required" then
        match decodeStringList v with
        | none => none
        | some req => some (.mk s.Schema s.Ref s.Ty s.Properties req s.AdditionalProperties)
      else if k = "additionalProperties" then
        match v with
        | .bool b => some (.mk s.Schema s.Ref s.Ty s.Properties s.Required (some b))
        | _ => none
      else
        some s

/-- Decode the value of a `properties` field: every value must itself
decode as a schema. -/
def decodePropFields : List (String × JSON) → Option (List (String × JsonSchema))
  | [] => some []
  | (k, v) :: rest =>
    match schemaOfJSON v with
    | none => none
    | some s =>
      match decodePropFields rest with
      | none => none
      | some ps => some ((k, s) :: ps)
end

/-- First binding of key `k` in a JSON object's field list. -/
def lookupField (k : String) : List (String × JSON) → Option JSON
  | [] => none
  | (k2, v) :: rest => if k2 = k then some v else lookupField k rest

/-- Modelled from the spec (§4.2): standard JSON Schema typing —
`"integer"` requires a whole-number value, `"number"` accepts integral and
fractional values, `"null"` matches only null, and the structural kinds
match their own instances. -/
def typeOk : Option String → JSON → Bool
  | none, _ => true
  | some t, j =>
    match j with
    | .null => t = "null"
    | .bool _ => t = "boolean"
    | .num q => t = "number" || (t = "integer" && q.den = 1)
    | .str _ => t = "string"
    | .arr _ => t = "array"
    | .obj _ => t = "object"

/-- Required-property check: every listed key is present. -/
def requiredOk (req : List String) (fields : List (String × JSON)) : Bool :=
  req.all fun k => (lookupField k fields).isSome

/-- Modelled from the spec (§4.2): `"additionalProperties": false` rejects
any instance key outside the declared property set; otherwise no
restriction. -/
def addlPropsOk (addl : Option Bool) (props : List (String × JsonSchema))
    (fields : List (String × JSON)) : Bool :=
  match addl with
  | some false => fields.all fun kv => props.any fun p => p.1 = kv.1
  | _ => true

mutual
/-- Modelled from the spec (§4.2 step 4): structural validation of an
instance against a resolved schema — type check, required-property check,
additional-properties policy, and nested validation of declared
properties. This stands in for the external `jsonschema-go` structural
engine, which is not part of this repository. -/
def validateAgainst : JsonSchema → JSON → Bool
  | .mk _ _ ty props req addl, j =>
    typeOk ty j &&
    (match j with
     | .obj fields =>
       requiredOk req fields && addlPropsOk addl props fields && validateProps props fields
     | _ => true)

/-- Validate each declared property that is present in the instance. -/
def validateProps : List (String × JsonSchema) → List (String × JSON) → Bool
  | [], _ => true
  | (k, sub) :: rest, fields =>
    (match lookupField k fields with
     | some v => validateAgainst sub v
     | none => true) &&
    validateProps rest fields
end

mutual
/-- Modelled from the spec (§4.2 step 3, §9): during resolution, a
reference that points outside the document (one not starting with the
in-document anchor marker `#`) is a reference fetch attempt; in-document
anchors resolve structurally without invoking the loader. This scans the
schema for the first such reference, standing in for the walk the external
`Resolve` performs. -/
def firstExternalRef : JsonSchema → Option String
  | .mk _ ref _ props _ _ =>
    match ref with
    | some r => if hasPre "#" r then firstExternalRefList props else some r
    | none => firstExternalRefList props

/-- First external reference among a property list's schemas. -/
def firstExternalRefList : List (String × JsonSchema) → Option String
  | [] => none
  | (_, s) :: rest =>
    match firstExternalRef s with
    | some r => some r
    | none => firstExternalRefList rest
end

/-- `blockExternalRefs` (validator.go:197-199): the loader that refuses
every reference load, returning an error wrapping `ErrExternalRef` and
naming the requested target. Translated from the source. -/
def blockExternalRefs (uri : String) : Except VError JsonSchema :=
  .error (.externalRef uri)

/-- Modelled from the spec (§4.2 step 3): `jsSchema.Resolve` with a
loader — whenever the document requires loading a reference, the loader is
invoked on the requested target and its error (if any) is the resolution
error; a document with no external reference resolves to itself. The
external library's `Resolve` is not part of this repository. -/
def Resolve (loader : String → Except VError JsonSchema) (s : JsonSchema) :
    Except VError JsonSchema :=
  match firstExternalRef s with
  | some uri =>
    match loader uri with
    | .error e => .error e
    | .ok _ => .ok s
  | none => .ok s

/-- The inhabitants of Go's `any` that `toJSONSchema` distinguishes for a
byte-sequence schema: `[]byte`/`json.RawMessage` content is either empty,
undecodable bytes (with the decoder's message), or well-formed JSON. -/
inductive RawBytes : Type where
  | empty : RawBytes
  | malformed (desc : String) : RawBytes
  | wellFormed (j : JSON) : RawBytes

/-- The schema argument of `Validate` — the runtime type switch of
`toJSONSchema` (validator.go:120): `*jsonschema.Schema` (nilable),
`jsonschema.Schema` by value, `json.RawMessage`, `[]byte`,
`map[string]any`, or any other dynamic type (recorded by its name, as
`%T` prints it). -/
inductive SchemaArg : Type where
  | schemaPtr (s : Option JsonSchema) : SchemaArg
  | schemaVal (s : JsonSchema) : SchemaArg
  | rawMessage (b : RawBytes) : SchemaArg
  | byteSlice (b : RawBytes) : SchemaArg
  | mapping (fields : List (String × JSON)) : SchemaArg
  | other (typeName : String) : SchemaArg

/-- `toJSONSchema` (validator.go:119-162), translated case by case. The
pointer case returns a shallow copy (validator.go:126); in the value
embedding a returned value is already independent of the argument, so the
copy is the identity here — the pointer-level consequence is proved on the
heap model below. Decoding bytes or a re-encoded mapping goes through
`schemaOfJSON`. -/
def toJSONSchema : SchemaArg → Except VError JsonSchema
  | .schemaPtr none => .error (.invalidSchema "nil schema")
  | .schemaPtr (some s) => .ok s
  | .schemaVal s => .ok s
  | .rawMessage .empty => .error (.invalidSchema "empty schema")
  | .rawMessage (.malformed d) => .error (.invalidSchema ("failed to parse schema: " ++ d))
  | .rawMessage (.wellFormed j) =>
    match schemaOfJSON j with
    | some s => .ok s
    | none => .error (.invalidSchema "failed to parse schema: cannot unmarshal into Schema")
  | .byteSlice .empty => .error (.invalidSchema "empty schema")
  | .byteSlice (.malformed d) => .error (.invalidSchema ("failed to parse schema: " ++ d))
  | .byteSlice (.wellFormed j) =>
    match schemaOfJSON j with
    | some s => .ok s
    | none => .error (.invalidSchema "failed to parse schema: cannot unmarshal into Schema")
  | .mapping fields =>
    match schemaOfJSON (.obj fields) with
    | some s => .ok s
    | none => .error (.invalidSchema "failed to parse schema: cannot unmarshal into Schema")
  | .other typeName =>
    .error (.invalidSchema ("expected map[string]any or *jsonschema.Schema, got " ++ typeName))

/-- `Validate` (validator.go:73-99): normalize, check the dialect, resolve
with the blocking loader (wrapping any resolution error), then validate
the instance structurally (wrapping any mismatch). -/
def Validate (schema : SchemaArg) (inst : JSON) : Except VError Unit := do
  let jsSchema ← toJSONSchema schema
  let jsSchema ← checkDialect jsSchema
  match Resolve blockExternalRefs jsSchema with
  | .error e => .error (.resolutionFailed e)
  | .ok resolved =>
    if validateAgainst resolved inst then .ok ()
    else .error (.validationFailed "instance does not conform to schema")

/-- The `Tool` record (tool.go:37-45 together with the embedded
`mcp.Tool`), restricted to the fields the validator and identifier code
consume. `InputSchema`/`OutputSchema` are Go `any` fields and therefore
nilable (`Option`). Strings of `tool.go` are character lists, matching
Go's byte-level string operations on ASCII data. -/
structure Tool : Type where
  Name : List Char
  Namespace : List Char
  Version : List Char
  Tags : List (List Char)
  InputSchema : Option SchemaArg
  OutputSchema : Option SchemaArg

/-- The observable outcome of a Go method call: normal return with no
error, normal return with an error, or a runtime panic (which a plain
`error` result cannot express). -/
inductive CallOutcome : Type where
  | ok : CallOutcome
  | err (e : VError) : CallOutcome
  | panic (msg : String) : CallOutcome

/-- View an `Except` result as a call outcome. -/
def outcomeOf : Except VError Unit → CallOutcome
  | .ok _ => .ok
  | .error e => .err e

/-- `ValidateInput` (validator.go:102-107). The Go receiver takes
`tool *Tool` and immediately reads `tool.InputSchema`; on a nil `tool`
that read is a nil-pointer dereference, i.e. a panic — the function has no
nil-tool check. -/
def ValidateInput (tool : Option Tool) (args : JSON) : CallOutcome :=
  match tool with
  | none => .panic "runtime error: invalid memory address or nil pointer dereference"
  | some t =>
    match t.InputSchema with
    | none => .err (.invalidSchema "InputSchema is nil")
    | some s => outcomeOf (Validate s args)

/-- `ValidateOutput` (validator.go:111-116). Like `ValidateInput`, the
receiver reads `tool.OutputSchema` with no nil-tool check; a nil
`OutputSchema` is a designed soft success. -/
def ValidateOutput (tool : Option Tool) (result : JSON) : CallOutcome :=
  match tool with
  | none => .panic "runtime error: invalid memory address or nil pointer dereference"
  | some t =>
    match t.OutputSchema with
    | none => .ok
    | some s => outcomeOf (Validate s result)

/-! ### Pointer-level model of `Validate` on a `*jsonschema.Schema`

To state the no-mutation (frame) property of claim C4 the by-reference
case is embedded with an explicit heap: pointers are indices into a list
of schema objects, `copySchema := *s` (validator.go:126) is an allocation,
and `schema.Schema = ""` (validator.go:181/188) is a write through the
pointer `checkDialect` was handed. -/

/-- Pointers into the schema heap. -/
abbrev Ptr : Type := Nat

/-- The heap of live `jsonschema.Schema` objects. -/
abbrev Heap : Type := List JsonSchema

/-- Dereference a pointer. -/
def Heap.read (h : Heap) (p : Ptr) : Option JsonSchema := h[p]?

/-- Write through a pointer. -/
def Heap.write (h : Heap) (p : Ptr) (s : JsonSchema) : Heap := h.set p s

/-- Allocate a fresh object, returning the extended heap and its pointer. -/
def Heap.alloc (h : Heap) (s : JsonSchema) : Heap × Ptr := (h ++ [s], h.length)

/-- The `*jsonschema.Schema` case of `toJSONSchema` on the heap: a nil or
dangling pointer is the nil-schema error; otherwise a shallow copy of the
pointee is allocated (validator.go:126) and the copy's pointer — not the
caller's — is returned. -/
def toJSONSchemaPtrH (h : Heap) (p : Ptr) : Heap × Except VError Ptr :=
  match h.read p with
  | none => (h, .error (.invalidSchema "nil schema"))
  | some s =>
    let (h2, q) := h.alloc s
    (h2, .ok q)

/-- `checkDialect` on the heap: reads the pointee, and on the draft-07
branches performs `schema.Schema = ""` as a write through the same
pointer. The decision logic is the pure `checkDialect`. -/
def checkDialectH (h : Heap) (p : Ptr) : Heap × Except VError Unit :=
  match h.read p with
  | none => (h, .error (.invalidSchema "nil schema"))
  | some s =>
    match checkDialect s with
    | .ok s2 => (h.write p s2, .ok ())
    | .error e => (h, .error e)

/-- `Validate` (validator.go:73-99) for a by-reference schema argument, on
the heap model: convert (allocating the defensive copy), check the
dialect (writing through the copy's pointer), then resolve and validate
structurally, which only read. Returns the final heap with the result. -/
def ValidateH (h : Heap) (p : Ptr) (inst : JSON) : Heap × Except VError Unit :=
  match toJSONSchemaPtrH h p with
  | (h1, .error e) => (h1, .error e)
  | (h1, .ok q) =>
    match checkDialectH h1 q with
    | (h2, .error e) => (h2, .error e)
    | (h2, .ok _) =>
      match h2.read q with
      | none => (h2, .error (.invalidSchema "nil schema"))
      | some jsSchema =>
        match Resolve blockExternalRefs jsSchema with
        | .error e => (h2, .error (.resolutionFailed e))
        | .ok resolved =>
          if validateAgainst resolved inst then (h2, .ok ())
          else (h2, .error (.validationFailed "instance does not conform to schema"))

/-! ### Tool identifiers and tags (`tool.go`) -/

/-- `Tool.ToolID` (tool.go:148-153): `"namespace:name"` when a namespace
is present, otherwise just the name. -/
def Tool.ToolID (t : Tool) : List Char :=
  if t.Namespace = [] then t.Name
  else t.Namespace ++ ':' :: t.Name

/-- `ParseToolID` (tool.go:158-185): empty input and more than one colon
are malformed (`none`, standing for `ErrInvalidToolID`); no colon means an
empty namespace; exactly one colon splits into namespace and name, both of
which must be non-empty. `strings.SplitN(id, ":", 2)` with one colon
yields the segments before and after that colon. -/
def ParseToolID (id : List Char) : Option (List Char × List Char) :=
  if id = [] then none
  else if 1 < id.count ':' then none
  else if id.count ':' = 0 then some ([], id)
  else
    let nspace := id.takeWhile (fun c => c != ':')
    let name := (id.dropWhile (fun c => c != ':')).drop 1
    if nspace = [] || name = [] then none
    else some (nspace, name)

/-- Characters admitted by `NormalizeTags` (tool.go:87): `[a-z0-9-_.]`,
checked at the byte level. -/
def allowedTagChar (c : Char) : Bool :=
  ('a' ≤ c && c ≤ 'z') || ('0' ≤ c && c ≤ '9') || c = '-' || c = '_' || c = '.'

/-- `strings.TrimSpace`, on the whitespace class of the model (ASCII
whitespace; the Go function trims Unicode whitespace, which coincides on
the ASCII range). -/
def trimSpace (l : List Char) : List Char :=
  ((l.dropWhile Char.isWhitespace).reverse.dropWhile Char.isWhitespace).reverse

/-- Accumulator pass behind `splitFields`: `acc` holds the current word
reversed; whitespace flushes it. -/
def splitFieldsAux : List Char → List Char → List (List Char)
  | [], acc => if acc = [] then [] else [acc.reverse]
  | c :: rest, acc =>
    if c.isWhitespace then
      if acc = [] then splitFieldsAux rest []
      else acc.reverse :: splitFieldsAux rest []
    else splitFieldsAux rest (c :: acc)

/-- `strings.Fields`: the maximal whitespace-free runs of the string. -/
def splitFields (l : List Char) : List (List Char) :=
  splitFieldsAux l []

/-- `strings.Join(fields, "-")`. -/
def joinDash (fields : List (List Char)) : List Char :=
  List.intercalate ['-'] fields

/-- The loop body state of `NormalizeTags` (tool.go:60-108): `seen` is the
membership set and `out` the accumulated tags; the loop breaks once `out`
reaches the maximum count, and otherwise lowercases, trims, joins interior
whitespace runs with `-`, filters to the allowed characters, truncates,
and appends when new. `strings.ToLower` is modelled by `Char.toLower`
(they coincide on ASCII). -/
def normalizeTagsLoop : List (List Char) → List (List Char) → List (List Char) →
    List (List Char)
  | [], _seen, out => out
  | raw :: rest, seen, out =>
    if 20 ≤ out.length then out
    else
      let t := trimSpace (raw.map Char.toLower)
      if t = [] then normalizeTagsLoop rest seen out
      else
        let t2 := joinDash (splitFields t)
        if t2 = [] then normalizeTagsLoop rest seen out
        else
          let b := t2.filter allowedTagChar
          if b = [] then normalizeTagsLoop rest seen out
          else
            let b2 := b.take 64
            if b2 = [] then normalizeTagsLoop rest seen out
            else if b2 ∈ seen then normalizeTagsLoop rest seen out
            else normalizeTagsLoop rest (b2 :: seen) (out ++ [b2])

/-- `NormalizeTags` (tool.go:60-108). -/
def NormalizeTags (tags : List (List Char)) : List (List Char) :=
  normalizeTagsLoop tags [] []

/-! ## Theorems -/

/-- No string carries both the 2020-12 family marker and the draft-07
family marker as a prefix: the two disagree already at their fifth byte. -/
theorem not_both_dialect_families (d : String) :
    ¬(hasPre dialect202012Family d = true ∧ hasPre dialectDraft07Family d = true) := by
  rintro ⟨hA, hB⟩
  unfold hasPre at hA hB
  have hA2 : dialect202012Family.data <+: d.data := List.isPrefixOf_iff_prefix.mp hA
  have hB2 : dialectDraft07Family.data <+: d.data := List.isPrefixOf_iff_prefix.mp hB
  rcases List.prefix_or_prefix_of_prefix hA2 hB2 with h | h
  · exact absurd (List.isPrefixOf_iff_prefix.mpr h) (by decide)
  · exact absurd (List.isPrefixOf_iff_prefix.mpr h) (by decide)

/-- C2: the dialect check of `Validate` decides exactly as the
specification's table states it — absent/empty accepts as 2020-12; the
2020-12 URI or its family prefix accepts unchanged; the two draft-07
spellings or the draft-07 family prefix accept after clearing the marker
on the (copied) schema; every other marker is an unsupported-dialect error
naming the marker, regardless of the instance. `dialectDecisionSpec`
transcribes the claim; `checkDialect` transcribes the code. -/
theorem checkDialect_matches_spec (s : JsonSchema) :
    checkDialect s = dialectDecisionSpec s := by
  unfold checkDialect dialectDecisionSpec
  by_cases h1 : s.Schema = ""
  · simp [h1]
  by_cases h2 : s.Schema = SchemaDialect202012
  · simp [h1, h2]
  by_cases h3 : s.Schema = SchemaDialectDraft07
  · simp [h1, h2, h3, show SchemaDialectDraft07 ≠ "" from by decide,
      show SchemaDialectDraft07 ≠ SchemaDialect202012 from by decide,
      show hasPre dialect202012Family SchemaDialectDraft07 = false from by decide]
  by_cases h4 : s.Schema = SchemaDialectDraft07Alt
  · simp [h1, h2, h3, h4, show SchemaDialectDraft07Alt ≠ "" from by decide,
      show SchemaDialectDraft07Alt ≠ SchemaDialect202012 from by decide,
      show hasPre dialect202012Family SchemaDialectDraft07Alt = false from by decide]
  by_cases h5 : hasPre dialect202012Family s.Schema
  · simp [h1, h2, h3, h4, h5]
  by_cases h6 : hasPre dialectDraft07Family s.Schema
  · simp [h1, h2, h3, h4, h5, h6]
  · simp [h1, h2, h3, h4, h5, h6]

/-- C8: `Validate` is deterministic — two calls with identical schema and
instance arguments return the same result (hence the same success/failure
classification). In this embedding `Validate` is a pure function of its
two arguments, mirroring that the source reads no global state, uses no
randomness, and iterates no Go map whose order could leak into the
outcome. -/
theorem validate_deterministic (s1 s2 : SchemaArg) (i1 i2 : JSON)
    (hs : s1 = s2) (hi : i1 = i2) : Validate s1 i1 = Validate s2 i2 := by
  rw [hs, hi]

/-- Witness for C8 at a concrete schema and instance. -/
theorem validate_deterministic_witness :
    Validate (.mapping [("type", .str "string")]) (.str "hello") =
      Validate (.mapping [("type", .str "string")]) (.str "hello") :=
  validate_deterministic _ _ _ _ rfl rfl

/-- C3 (failing input): `DefaultValidator.ValidateInput` reads
`tool.InputSchema` with no nil check (validator.go:103), so a nil tool is
a nil-pointer dereference — a panic, not the `ErrInvalidSchema` error that
the `SchemaValidator` contract (validator.go:38) and the contract test
(schema_validator_contract_test.go:91-96) require. -/
theorem validateInput_nil_tool_panics :
    ValidateInput none .null =
      .panic "runtime error: invalid memory address or nil pointer dereference" := rfl

/-- C7: for every non-nil tool, `ValidateOutput` succeeds with no
validation when the tool's output schema is absent, and otherwise returns
exactly the outcome of `Validate` on the output schema and the result. -/
theorem validateOutput_spec (t : Tool) (result : JSON) :
    (t.OutputSchema = none → ValidateOutput (some t) result = .ok) ∧
    (∀ s, t.OutputSchema = some s →
      ValidateOutput (some t) result = outcomeOf (Validate s result)) := by
  refine ⟨fun h => ?_, fun s h => ?_⟩
  · simp [ValidateOutput, h]
  · simp [ValidateOutput, h]

/-- Witness for C7: a tool without an output schema validates any result,
and one with an output schema delegates to `Validate`. -/
theorem validateOutput_spec_witness :
    ValidateOutput (some ⟨['t'], [], [], [], none, none⟩) .null = .ok ∧
    ValidateOutput (some ⟨['t'], [], [], [], none, some (.mapping [("type", .str "string")])⟩)
        (.str "ok") =
      outcomeOf (Validate (.mapping [("type", .str "string")]) (.str "ok")) :=
  ⟨(validateOutput_spec ⟨['t'], [], [], [], none, none⟩ .null).1 rfl,
   (validateOutput_spec ⟨['t'], [], [], [], none,
       some (.mapping [("type", .str "string")])⟩ (.str "ok")).2 _ rfl⟩

/-- C6: every failure path of the schema normalizer returns immediately
with an error wrapping `ErrInvalidSchema`: empty byte sequences, byte
sequences whose decoding fails (the failure wrapped into the message),
mappings whose re-encode/decode round trip fails, and arguments of any
other type, whose name appears in the message. -/
theorem toJSONSchema_error_paths :
    (∀ msg, (VError.invalidSchema msg).wrapsInvalidSchema = true) ∧
    toJSONSchema (.rawMessage .empty) = .error (.invalidSchema "empty schema") ∧
    toJSONSchema (.byteSlice .empty) = .error (.invalidSchema "empty schema") ∧
    (∀ d, toJSONSchema (.rawMessage (.malformed d)) =
      .error (.invalidSchema ("failed to parse schema: " ++ d))) ∧
    (∀ d, toJSONSchema (.byteSlice (.malformed d)) =
      .error (.invalidSchema ("failed to parse schema: " ++ d))) ∧
    (∀ j, schemaOfJSON j = none → toJSONSchema (.rawMessage (.wellFormed j)) =
      .error (.invalidSchema "failed to parse schema: cannot unmarshal into Schema")) ∧
    (∀ j, schemaOfJSON j = none → toJSONSchema (.byteSlice (.wellFormed j)) =
      .error (.invalidSchema "failed to parse schema: cannot unmarshal into Schema")) ∧
    (∀ m, schemaOfJSON (.obj m) = none → toJSONSchema (.mapping m) =
      .error (.invalidSchema "failed to parse schema: cannot unmarshal into Schema")) ∧
    (∀ n, toJSONSchema (.other n) =
      .error (.invalidSchema ("expected map[string]any or *jsonschema.Schema, got " ++ n))) := by
  refine ⟨fun msg => rfl, rfl, rfl, fun d => rfl, fun d => rfl,
    fun j hj => ?_, fun j hj => ?_, fun m hm => ?_, fun n => rfl⟩
  · simp [toJSONSchema, hj]
  · simp [toJSONSchema, hj]
  · simp [toJSONSchema, hm]

/-- Witness for C6: a scalar decodes to no schema, and a mapping with a
non-string `type` fails the decode, both yielding the invalid-schema
error; an unsupported dynamic type is named in its message. -/
theorem toJSONSchema_error_paths_witness :
    toJSONSchema (.rawMessage (.wellFormed (.str "x"))) =
      .error (.invalidSchema "failed to parse schema: cannot unmarshal into Schema") ∧
    toJSONSchema (.mapping [("type", .num 5)]) =
      .error (.invalidSchema "failed to parse schema: cannot unmarshal into Schema") ∧
    toJSONSchema (.other "int") =
      .error (.invalidSchema "expected map[string]any or *jsonschema.Schema, got int") :=
  ⟨toJSONSchema_error_paths.2.2.2.2.2.1 (.str "x") rfl,
   toJSONSchema_error_paths.2.2.2.2.2.2.2.1 [("type", .num 5)] rfl,
   toJSONSchema_error_paths.2.2.2.2.2.2.2.2 "int"⟩

/-- C5: `Validate` yields the same outcome whether the same logical schema
arrives as a canonical object by reference, as a canonical object by
value, as well-formed encoded bytes (either byte-container type), or as a
generic mapping — "describing the same logical schema" meaning the bytes
and the re-encoded mapping decode to that canonical object. -/
theorem validate_representation_equivalence (s : JsonSchema) (j : JSON)
    (m : List (String × JSON)) (inst : JSON)
    (hb : schemaOfJSON j = some s) (hm : schemaOfJSON (.obj m) = some s) :
    Validate (.schemaPtr (some s)) inst = Validate (.rawMessage (.wellFormed j)) inst ∧
    Validate (.schemaPtr (some s)) inst = Validate (.byteSlice (.wellFormed j)) inst ∧
    Validate (.schemaPtr (some s)) inst = Validate (.mapping m) inst ∧
    Validate (.schemaPtr (some s)) inst = Validate (.schemaVal s) inst := by
  unfold Validate
  simp [toJSONSchema, hb, hm]

/-- Witness for C5: the schema `(type: string)` given as an object, as
bytes, and as a mapping validates the instance `"hello"` identically. -/
theorem validate_representation_equivalence_witness :
    Validate (.schemaPtr (some (.mk "" none (some "string") [] [] none))) (.str "hello") =
      Validate (.rawMessage (.wellFormed (.obj [("type", .str "string")]))) (.str "hello") ∧
    Validate (.schemaPtr (some (.mk "" none (some "string") [] [] none))) (.str "hello") =
      Validate (.byteSlice (.wellFormed (.obj [("type", .str "string")]))) (.str "hello") ∧
    Validate (.schemaPtr (some (.mk "" none (some "string") [] [] none))) (.str "hello") =
      Validate (.mapping [("type", .str "string")]) (.str "hello") ∧
    Validate (.schemaPtr (some (.mk "" none (some "string") [] [] none))) (.str "hello") =
      Validate (.schemaVal (.mk "" none (some "string") [] [] none)) (.str "hello") :=
  validate_representation_equivalence (.mk "" none (some "string") [] [] none)
    (.obj [("type", .str "string")]) [("type", .str "string")] (.str "hello") rfl rfl

/-- C1: whenever resolution of the (normalized, dialect-accepted) schema
requires loading a reference, the blocking loader refuses it and
`Validate` returns the resolution error wrapping `ErrExternalRef` and
naming the requested target — no fetch is performed (the loader has no
fetching behaviour at all). In particular the schema
`($ref: https://example.com/x.json)` is rejected this way for every
instance. -/
theorem validate_blocks_external_refs :
    (∀ (arg : SchemaArg) (inst : JSON) (s s2 : JsonSchema) (uri : String),
      toJSONSchema arg = .ok s → checkDialect s = .ok s2 →
      firstExternalRef s2 = some uri →
      Validate arg inst = .error (.resolutionFailed (.externalRef uri))) ∧
    (∀ uri, (VError.resolutionFailed (.externalRef uri)).wrapsExternalRef = true) ∧
    (∀ inst : JSON,
      Validate (.mapping [("$ref", .str "https://example.com/x.json")]) inst =
        .error (.resolutionFailed (.externalRef "https://example.com/x.json"))) := by
  refine ⟨fun arg inst s s2 uri h1 h2 h3 => ?_, fun uri => rfl, fun inst => rfl⟩
  unfold Validate
  rw [h1]
  show (do
    let jsSchema ← checkDialect s
    match Resolve blockExternalRefs jsSchema with
    | Except.error e => Except.error (VError.resolutionFailed e)
    | Except.ok resolved =>
      if validateAgainst resolved inst then Except.ok ()
      else Except.error (VError.validationFailed "instance does not conform to schema")) =
    Except.error (VError.resolutionFailed (VError.externalRef uri))
  rw [h2]
  show (match Resolve blockExternalRefs s2 with
    | Except.error e => Except.error (VError.resolutionFailed e)
    | Except.ok resolved =>
      if validateAgainst resolved inst then Except.ok ()
      else Except.error (VError.validationFailed "instance does not conform to schema")) =
    Except.error (VError.resolutionFailed (VError.externalRef uri))
  unfold Resolve
  rw [h3]
  rfl

/-- Witness for C1: the external-reference schema, supplied as a mapping,
is blocked on the null instance, via the general implication. -/
theorem validate_blocks_external_refs_witness :
    Validate (.mapping [("$ref", .str "https://example.com/x.json")]) .null =
      .error (.resolutionFailed (.externalRef "https://example.com/x.json")) :=
  validate_blocks_external_refs.1 (.mapping [("$ref", .str "https://example.com/x.json")])
    .null (.mk "" (some "https://example.com/x.json") none [] [] none)
    (.mk "" (some "https://example.com/x.json") none [] [] none)
    "https://example.com/x.json" rfl rfl rfl

/-- C4: `Validate` on a by-reference schema never mutates the caller's
schema object — on the heap model, the caller's pointer dereferences to
the same object after the call as before it (so in particular the dialect
marker field is unchanged, even when it held a draft-07 URI, which is
cleared only on the validator's own copy). -/
theorem validateH_frame (h : Heap) (p : Ptr) (inst : JSON) :
    (ValidateH h p inst).1.read p = h.read p ∧
    ((ValidateH h p inst).1.read p).map JsonSchema.Schema =
      (h.read p).map JsonSchema.Schema := by
  have main : (ValidateH h p inst).1.read p = h.read p := by
    cases hr : h.read p with
    | none => simp [ValidateH, toJSONSchemaPtrH, hr]
    | some s =>
      have hplt : p < h.length := by
        by_contra hc
        push_neg at hc
        unfold Heap.read at hr
        rw [List.getElem?_eq_none hc] at hr
        exact Option.noConfusion hr
      have hne : p ≠ h.length := Nat.ne_of_lt hplt
      simp only [Heap.read] at hr
      have happ : (h ++ [s] : List JsonSchema)[p]? = some s := by
        rw [List.getElem?_append, if_pos hplt]
        exact hr
      have hq : (h ++ [s] : List JsonSchema)[h.length]? = some s := by simp
      cases hcd : checkDialect s with
      | error e =>
        simp only [ValidateH, toJSONSchemaPtrH, checkDialectH, Heap.alloc, Heap.read, Heap.write,
          hr, hq, hcd]
        exact happ
      | ok s2 =>
        have hsetread : (List.set (h ++ [s]) h.length s2)[h.length]? = some s2 :=
          List.getElem?_set_eq_of_lt s2 (by simp)
        have hsetp : (List.set (h ++ [s]) h.length s2)[p]? = some s := by
          rw [List.getElem?_set_ne (Ne.symm hne)]
          exact happ
        cases hres : Resolve blockExternalRefs s2 with
        | error e =>
          simp only [ValidateH, toJSONSchemaPtrH, checkDialectH, Heap.alloc, Heap.read, Heap.write,
            hr, hq, hcd, hsetread, hres]
          exact hsetp
        | ok r =>
          cases hv : validateAgainst r inst with
          | true =>
            simp only [ValidateH, toJSONSchemaPtrH, checkDialectH, Heap.alloc, Heap.read,
              Heap.write, hr, hq, hcd, hsetread, hres, hv, if_true]
            exact hsetp
          | false =>
            simp only [ValidateH, toJSONSchemaPtrH, checkDialectH, Heap.alloc, Heap.read,
              Heap.write, hr, hq, hcd, hsetread, hres, hv, Bool.false_eq_true, if_false]
            exact hsetp
  exact ⟨main, by rw [main]⟩

/-- `takeWhile` up to the first colon of `ns ++ ':' :: name` is `ns` when
`ns` is colon-free. -/
theorem takeWhile_append_colon (ns name : List Char) (h : ':' ∉ ns) :
    (ns ++ ':' :: name).takeWhile (fun c => c != ':') = ns := by
  induction ns with
  | nil => simp [List.takeWhile_cons]
  | cons c rest ih =>
    have hc : c ≠ ':' := fun hcc => h (hcc ▸ List.mem_cons_self c rest)
    have hrest : ':' ∉ rest := fun hm => h (List.mem_cons_of_mem c hm)
    simp [List.takeWhile_cons, hc, ih hrest]

/-- `dropWhile` up to the first colon of `ns ++ ':' :: name` leaves the
colon and the name when `ns` is colon-free. -/
theorem dropWhile_append_colon (ns name : List Char) (h : ':' ∉ ns) :
    (ns ++ ':' :: name).dropWhile (fun c => c != ':') = ':' :: name := by
  induction ns with
  | nil => simp [List.dropWhile_cons]
  | cons c rest ih =>
    have hc : c ≠ ':' := fun hcc => h (hcc ▸ List.mem_cons_self c rest)
    have hrest : ':' ∉ rest := fun hm => h (List.mem_cons_of_mem c hm)
    simp [List.dropWhile_cons, hc, ih hrest]

/-- C9: tool identifiers round-trip — for every tool whose name is
non-empty and whose namespace and name are colon-free, `ParseToolID`
applied to `ToolID` recovers exactly the namespace and the name, with no
error. -/
theorem parseToolID_toolID_roundtrip (t : Tool)
    (hname : t.Name ≠ []) (hns : ':' ∉ t.Namespace) (hnm : ':' ∉ t.Name) :
    ParseToolID t.ToolID = some (t.Namespace, t.Name) := by
  unfold Tool.ToolID ParseToolID
  by_cases h : t.Namespace = []
  · rw [if_pos h, if_neg hname, List.count_eq_zero.mpr hnm]
    simp [h]
  · rw [if_neg h]
    have hid : (t.Namespace ++ ':' :: t.Name) ≠ [] := by simp
    rw [if_neg hid]
    have hcount : (t.Namespace ++ ':' :: t.Name).count ':' = 1 := by
      rw [List.count_append, List.count_cons]
      simp [List.count_eq_zero.mpr hns, List.count_eq_zero.mpr hnm]
    rw [hcount]
    simp only [Nat.lt_irrefl, if_false, Nat.one_ne_zero, reduceIte]
    rw [takeWhile_append_colon _ _ hns, dropWhile_append_colon _ _ hns]
    simp [h, hname]

/-- Witness for C9: the tool named `x` in namespace `g` round-trips. -/
theorem parseToolID_toolID_roundtrip_witness :
    ParseToolID (Tool.ToolID ⟨['x'], ['g'], [], [], none, none⟩) = some (['g'], ['x']) :=
  parseToolID_toolID_roundtrip ⟨['x'], ['g'], [], [], none, none⟩
    (by decide) (by decide) (by decide)

/-- Loop invariant of `NormalizeTags`: if the accumulated output is within
the count bound, all its tags are non-empty, within the length bound and
over the allowed alphabet, it is duplicate-free, and it is contained in
the seen-set, then the finished loop output has the first three
properties. -/
theorem normalizeTagsLoop_invariant (tags : List (List Char)) :
    ∀ seen out : List (List Char),
      out.length ≤ 20 →
      (∀ x ∈ out, x ≠ [] ∧ x.length ≤ 64 ∧ ∀ c ∈ x, allowedTagChar c) →
      (∀ x ∈ out, x ∈ seen) →
      out.Nodup →
      ((normalizeTagsLoop tags seen out).length ≤ 20 ∧
       (∀ x ∈ normalizeTagsLoop tags seen out,
          x ≠ [] ∧ x.length ≤ 64 ∧ ∀ c ∈ x, allowedTagChar c) ∧
       (normalizeTagsLoop tags seen out).Nodup) := by
  induction tags with
  | nil =>
    intro seen out h1 h2 h3 h4
    exact ⟨h1, h2, h4⟩
  | cons raw rest ih =>
    intro seen out h1 h2 h3 h4
    unfold normalizeTagsLoop
    by_cases hlen : 20 ≤ out.length
    · rw [if_pos hlen]
      exact ⟨h1, h2, h4⟩
    rw [if_neg hlen]
    dsimp only
    split_ifs with ht ht2 hb hb2 hmem
    · exact ih seen out h1 h2 h3 h4
    · exact ih seen out h1 h2 h3 h4
    · exact ih seen out h1 h2 h3 h4
    · exact ih seen out h1 h2 h3 h4
    · exact ih seen out h1 h2 h3 h4
    · set b2 := ((joinDash (splitFields (trimSpace (raw.map Char.toLower)))).filter
        allowedTagChar).take 64 with hb2def
      apply ih (b2 :: seen) (out ++ [b2])
      · have : out.length < 20 := Nat.lt_of_not_le hlen
        simp only [List.length_append, List.length_singleton]
        omega
      · intro x hx
        rcases List.mem_append.mp hx with hx | hx
        · exact h2 x hx
        · have hxb : x = b2 := by simpa using hx
          subst hxb
          refine ⟨hb2, ?_, ?_⟩
          · exact List.length_take_le 64 _
          · intro c hc
            have := List.mem_of_mem_take hc
            exact (List.mem_filter.mp this).2
      · intro x hx
        rcases List.mem_append.mp hx with hx | hx
        · exact List.mem_cons_of_mem _ (h3 x hx)
        · have hxb : x = b2 := by simpa using hx
          subst hxb
          exact List.mem_cons_self _ _
      · have hnotout : b2 ∉ out := fun hmem2 => hmem (h3 b2 hmem2)
        simp [List.nodup_append, h4, hnotout]

/-- C10: for every input, `NormalizeTags` returns at most 20 tags; every
returned tag is non-empty, at most 64 bytes long (all characters are
single-byte ASCII from the allowed set `a-z0-9-_.`), and no tag appears
twice in the returned list. -/
theorem normalizeTags_props (tags : List (List Char)) :
    (NormalizeTags tags).length ≤ 20 ∧
    (∀ x ∈ NormalizeTags tags, x ≠ [] ∧ x.length ≤ 64 ∧ ∀ c ∈ x, allowedTagChar c) ∧
    (NormalizeTags tags).Nodup :=
  normalizeTagsLoop_invariant tags [] [] (by simp) (by simp) (by simp) List.nodup_nil

/-- Witness for C10: normalizing `["Ab"]` yields the tag `ab`, which the
theorem certifies non-empty, within the length bound and over the allowed
alphabet. -/
theorem normalizeTags_props_witness :
    ['a', 'b'] ≠ [] ∧ ['a', 'b'].length ≤ 64 ∧ ∀ c ∈ ['a', 'b'], allowedTagChar c :=
  (normalizeTags_props [['A', 'b']]).2.1 ['a', 'b'] (by decide)

end Toolmodel
